import Mathlib

/-!
Verification development for the MikroMail SMTP client
(src/SMTPClient.ts, src/utils/index.ts, src/interfaces/index.ts).

JavaScript strings are modelled as lists of UTF-16 code units
(`Str := List Nat`), which is the data JavaScript string operations
(`charCodeAt`, regexes without the `u` flag, `.length`) act on.
All definitions are shallow embeddings of the corresponding TypeScript
functions; source line references are given at each definition.
-/

namespace MikroMail

/-- A JavaScript string: a list of UTF-16 code units. -/
abbrev Str := List Nat

/-- UTF-16 code units of one Unicode character (surrogate pair above U+FFFF). -/
def charUnits (c : Char) : List Nat :=
  let v := c.val.toNat
  if v < 0x10000 then [v]
  else
    let w := v - 0x10000
    [0xD800 + w / 0x400, 0xDC00 + w % 0x400]

/-- Convert a Lean string literal to its JavaScript (UTF-16) representation. -/
def str (s : String) : Str :=
  (s.toList.map charUnits).flatten

/-- JavaScript `hay.includes(needle)` on strings (substring test). -/
def hasSubstr (hay needle : Str) : Bool :=
  match hay with
  | [] => needle.isEmpty
  | _ :: t => needle.isPrefixOf hay || hasSubstr t needle

/-- UTF-8 bytes of a single UTF-16 code unit below a surrogate context
(or a lone surrogate, which encodes as U+FFFD, EF BF BD). -/
def utf8Unit (u : Nat) : List Nat :=
  if u < 0x80 then [u]
  else if u < 0x800 then [0xC0 + u / 0x40, 0x80 + u % 0x40]
  else if 0xD800 ≤ u ∧ u < 0xE000 then [0xEF, 0xBF, 0xBD]
  else [0xE0 + u / 0x1000, 0x80 + u / 0x40 % 0x40, 0x80 + u % 0x40]

/-- Model of `TextEncoder().encode` / `Buffer.from(string)`: UTF-8 bytes of a UTF-16
code-unit sequence; a surrogate pair encodes its code point, a lone
surrogate encodes as U+FFFD (EF BF BD). -/
def utf8Encode : Str → List Nat
  | [] => []
  | [u] => utf8Unit u
  | u :: v :: t =>
    if (0xD800 ≤ u ∧ u < 0xDC00) ∧ (0xDC00 ≤ v ∧ v < 0xE000) then
      let cp := 0x10000 + (u - 0xD800) * 0x400 + (v - 0xDC00)
      (0xF0 + cp / 0x40000) :: (0x80 + cp / 0x1000 % 0x40) ::
        (0x80 + cp / 0x40 % 0x40) :: (0x80 + cp % 0x40) :: utf8Encode t
    else utf8Unit u ++ utf8Encode (v :: t)

/-- Model of `text.replace(/\r?\n/g, '\r\n')` (utils, encodeQuotedPrintable step 1):
every LF, optionally preceded by CR, becomes CR LF; a lone CR is kept. -/
def normalizeNewlines : Str → Str
  | [] => []
  | 13 :: 10 :: t => 13 :: 10 :: normalizeNewlines t
  | 10 :: t => 13 :: 10 :: normalizeNewlines t
  | c :: t => c :: normalizeNewlines t

/-- Model of `result.replace(/=/g, '=3D')` (utils, encodeQuotedPrintable step 2). -/
def replaceEq : Str → Str
  | [] => []
  | 61 :: t => 61 :: 51 :: 68 :: replaceEq t
  | c :: t => c :: replaceEq t

/-- One uppercase hexadecimal digit. -/
def hexDigit (n : Nat) : Nat := if n < 10 then 48 + n else 55 + n

/-- Model of `n.toString(16).toUpperCase()`: uppercase hex digits of `n`, written out
for `n < 0x10000` (the only inputs that occur: bytes in the body encoder,
UTF-16 code units in the header encoder). -/
def hexRep (n : Nat) : Str :=
  if n < 16 then [hexDigit n]
  else if n < 256 then [hexDigit (n / 16), hexDigit (n % 16)]
  else if n < 4096 then [hexDigit (n / 256), hexDigit (n / 16 % 16), hexDigit (n % 16)]
  else [hexDigit (n / 4096 % 16), hexDigit (n / 256 % 16),
        hexDigit (n / 16 % 16), hexDigit (n % 16)]

/-- The source's padding idiom: prepend a `0` when a single hex digit. -/
def hexPad2 (n : Nat) : Str :=
  let h := hexRep n
  if h.length < 2 then 48 :: h else h

/-- The `chunk` computed for one byte by `encodeQuotedPrintable`'s loop:
printable ASCII except `=`, plus space, verbatim; CR/LF verbatim; all
other bytes `=HH`. -/
def qpChunk (b : Nat) : Str :=
  if (33 ≤ b ∧ b ≤ 126 ∧ b ≠ 61) ∨ b = 32 then [b]
  else if b = 13 ∨ b = 10 then [b]
  else 61 :: hexPad2 b

/-- The byte-wise pass of `encodeQuotedPrintable` (utils), carrying the
running line length: LF resets the line length; a soft break `=CRLF` is
emitted when the chunk would push the line past 75 characters (never
before CR/LF chunks). -/
def qpStep : List Nat → Nat → Str
  | [], _ => []
  | b :: t, ll =>
    let ll1 := if b = 10 then 0 else ll
    if ll1 + (qpChunk b).length > 75 ∧ ¬(b = 13 ∨ b = 10) then
      61 :: 13 :: 10 :: (qpChunk b ++ qpStep t (qpChunk b).length)
    else
      qpChunk b ++ qpStep t (ll1 + (qpChunk b).length)

/-- Model of `encodeQuotedPrintable` (src/utils/index.ts): normalize line endings,
substitute `=` → `=3D`, convert to UTF-8 bytes, then the byte-wise pass. -/
def encodeQuotedPrintable (text : Str) : Str :=
  qpStep (utf8Encode (replaceEq (normalizeNewlines text))) 0

/-! ## Address validation (src/utils/index.ts, `validateEmail`) -/

/-- ASCII decimal digit. -/
def isDigit (u : Nat) : Bool := 48 ≤ u && u ≤ 57

/-- ASCII letter or digit. -/
def isAlnum (u : Nat) : Bool :=
  (65 ≤ u && u ≤ 90) || (97 ≤ u && u ≤ 122) || isDigit u

/-- ASCII letter, digit, or hyphen. -/
def isAlnumHyphen (u : Nat) : Bool := isAlnum u || u = 45

/-- Characters admitted in the local part by the source regex
(letters, digits, and the listed specials including dot). -/
def isLocalChar (u : Nat) : Bool :=
  isAlnum u ||
    (u = 33 || u = 35 || u = 36 || u = 37 || u = 38 || u = 39 || u = 42 ||
     u = 43 || u = 45 || u = 47 || u = 61 || u = 63 || u = 94 || u = 95 ||
     u = 96 || u = 123 || u = 124 || u = 125 || u = 126 || u = 46)

/-- One dotted-decimal group of `[0-9]{1,3}`. -/
def ipv4Group (g : Str) : Bool :=
  decide (1 ≤ g.length) && decide (g.length ≤ 3) && g.all isDigit

/-- The source's `ipv4Regex` test: exactly four dot-separated groups of
one to three digits. -/
def ipv4Check (inner : Str) : Bool :=
  let gs := inner.splitOn 46
  decide (gs.length = 4) && gs.all ipv4Group

/-- One domain label against `^[a-zA-Z0-9]([a-zA-Z0-9\-]*[a-zA-Z0-9])?$`:
first and last character alphanumeric, interior alphanumeric or hyphen. -/
def labelOk (p : Str) : Bool :=
  match p with
  | [] => false
  | a :: t =>
    isAlnum a &&
      (match t.getLast? with
       | none => true
       | some z => t.dropLast.all isAlnumHyphen && isAlnum z)

/-- Model of `validateEmail` (src/utils/index.ts): split at `@`, check the local
part's length, dot placement and character set, then the domain: bracketed
IPv6/IPv4 literals, or two-plus labels with a two-plus-character top label. -/
def validateEmail (email : Str) : Bool :=
  let parts := email.splitOn 64
  let localPart := parts.headD []
  -- if (!localPart || localPart.length > 64) return false
  if localPart.isEmpty || decide (localPart.length > 64) then false
  -- invalid dot placement in the local part
  else if (46 :: []).isPrefixOf localPart || localPart.getLast? = some 46 ||
      hasSubstr localPart [46, 46] then false
  -- character whitelist for the local part
  else if !(localPart.all isLocalChar) then false
  else
    match parts.get? 1 with
    | none => false  -- no @: domain is undefined
    | some domain =>
      if domain.isEmpty || decide (domain.length > 255) then false
      else if (91 :: []).isPrefixOf domain && domain.getLast? = some 93 then
        -- bracketed address literal
        let inner := (domain.drop 1).dropLast
        if (str "IPv6:").isPrefixOf inner then true else ipv4Check inner
      else if (46 :: []).isPrefixOf domain || domain.getLast? = some 46 ||
          hasSubstr domain [46, 46] then false
      else
        let domainParts := domain.splitOn 46
        if decide (domainParts.length < 2) ||
            decide ((domainParts.getLastD []).length < 2) then false
        else domainParts.all fun part =>
          !part.isEmpty && decide (part.length ≤ 63) && labelOk part

/-! ## Header encoding and sanitization (src/SMTPClient.ts 487-514) -/

/-- Model of `encodeHeaderValue` (SMTPClient.ts 487-502): all code units ASCII pass
through; otherwise every non-ASCII code unit (the value of `charCodeAt`,
as the source's per-character regex replacement operates on UTF-16 code
units) becomes `=` plus its uppercase hex, inside an `=?UTF-8?Q?...?=`
wrapper. -/
def encodeHeaderValue (value : Str) : Str :=
  if value.all (fun u => u ≤ 0x7F) then value
  else
    str "=?UTF-8?Q?" ++
      (value.map fun u => if u ≤ 0x7F then [u] else 61 :: hexPad2 u).flatten ++
      str "?="

/-- JavaScript `\s` (and `trim`) whitespace class. -/
def isJsSpace (u : Nat) : Bool :=
  u = 32 || u = 9 || u = 10 || u = 11 || u = 12 || u = 13 ||
  u = 0xA0 || u = 0x1680 || (0x2000 ≤ u && u ≤ 0x200A) ||
  u = 0x2028 || u = 0x2029 || u = 0x202F || u = 0x205F ||
  u = 0x3000 || u = 0xFEFF

/-- CR, LF or TAB (the class of `/[\r\n\t]+/`). -/
def isCrLfTab (u : Nat) : Bool := u = 13 || u = 10 || u = 9

/-- Run machine for `value.replace(/[\r\n\t]+/g, ' ')`: `inRun` records
that the current CR/LF/TAB run has already emitted its space. -/
def collapseCrLfTabGo (inRun : Bool) : Str → Str
  | [] => []
  | c :: t =>
    if isCrLfTab c then
      if inRun then collapseCrLfTabGo true t
      else 32 :: collapseCrLfTabGo true t
    else c :: collapseCrLfTabGo false t

/-- Model of `value.replace(/[\r\n\t]+/g, ' ')`: each run of CR/LF/TAB becomes one
space. -/
def collapseCrLfTab (s : Str) : Str := collapseCrLfTabGo false s

/-- Run machine for `.replace(/\s{2,}/g, ' ')`: `pending` records being
inside a whitespace run whose single replacement space was already
emitted. A lone whitespace character (run of length one) is unmatched by
the regex and kept verbatim. -/
def collapseSpacesGo (pending : Bool) : Str → Str
  | [] => []
  | c :: t =>
    if pending then
      if isJsSpace c then collapseSpacesGo true t
      else c :: collapseSpacesGo false t
    else if isJsSpace c then
      match t with
      | [] => [c]
      | d :: _ => if isJsSpace d then 32 :: collapseSpacesGo true t
                  else c :: collapseSpacesGo false t
    else c :: collapseSpacesGo false t

/-- Model of `.replace(/\s{2,}/g, ' ')`: each run of two or more whitespace
characters becomes one space. -/
def collapseSpaces (s : Str) : Str := collapseSpacesGo false s

/-- JavaScript `String.prototype.trim`. -/
def trimJs (s : Str) : Str :=
  ((s.dropWhile isJsSpace).reverse.dropWhile isJsSpace).reverse

/-- Model of `sanitizeHeader` (SMTPClient.ts 507-514): collapse CR/LF/TAB runs to a
space, collapse multi-whitespace runs, trim, then apply the header
encoding. -/
def sanitizeHeader (value : Str) : Str :=
  encodeHeaderValue (trimJs (collapseSpaces (collapseCrLfTab value)))

/-! ## Base64 (`Buffer.from(...).toString('base64')`) -/

/-- The standard base64 alphabet, by 6-bit value. -/
def b64char (n : Nat) : Nat :=
  if n < 26 then 65 + n
  else if n < 52 then 97 + (n - 26)
  else if n < 62 then 48 + (n - 52)
  else if n = 62 then 43 else 47

/-- Base64 of a byte list, with `=` padding. -/
def b64encode : List Nat → Str
  | [] => []
  | [a] => [b64char (a / 4), b64char (a % 4 * 16), 61, 61]
  | [a, b] => [b64char (a / 4), b64char (a % 4 * 16 + b / 16), b64char (b % 16 * 4), 61]
  | a :: b :: c :: t =>
    b64char (a / 4) :: b64char (a % 4 * 16 + b / 16) ::
      b64char (b % 16 * 4 + c / 64) :: b64char (c % 64) :: b64encode t

/-- Model of `Buffer.from(s).toString('base64')` on a JavaScript string: base64 of
its UTF-8 bytes. -/
def b64ofStr (s : Str) : Str := b64encode (utf8Encode s)

/-! ## Debug-log redaction (SMTPClient.ts 332-343) -/

/-- The redaction test of `sendCommand`: the command starts with
`AUTH PLAIN` or `AUTH LOGIN`, or the previous command was exactly
`AUTH LOGIN` and this one does not start with `AUTH`. -/
def redactCommand (lastCommand command : Str) : Bool :=
  (str "AUTH PLAIN").isPrefixOf command ||
  (str "AUTH LOGIN").isPrefixOf command ||
  (decide (lastCommand = str "AUTH LOGIN") && !(str "AUTH").isPrefixOf command)

/-- The debug line `sendCommand` emits for one command. -/
def logLineFor (lastCommand command : Str) : Str :=
  if redactCommand lastCommand command then str "SMTP Command: [Credentials hidden]"
  else str "SMTP Command: " ++ command

/-- Debug lines for a command sequence, threading the mutable
`lastCommand` field (updated to each command after logging it). -/
def debugLogFrom (lastCommand : Str) : List Str → List Str
  | [] => []
  | c :: t => logLineFor lastCommand c :: debugLogFrom c t

/-- The command sequence of `authenticateLogin` (SMTPClient.ts 428-442):
`AUTH LOGIN`, then the base64 user name, then the base64 password. -/
def authenticateLoginCmds (user password : Str) : List Str :=
  [str "AUTH LOGIN", b64ofStr user, b64ofStr password]

/-! ## Configuration resolution (SMTPClient.ts constructor, 93-114) -/

/-- The optional-field input interface `SMTPConfiguration`
(src/interfaces/index.ts). -/
structure SMTPConfigurationIn where
  user : Str
  password : Str
  host : Str
  port? : Option Nat := none
  secure? : Option Bool := none
  timeout? : Option Nat := none
  debug? : Option Bool := none
  clientName? : Option Str := none
  maxRetries? : Option Nat := none
  retryDelay? : Option Nat := none
  skipAuthentication? : Option Bool := none
deriving DecidableEq

/-- The resolved `Required<SMTPConfiguration>` stored on the client. -/
structure SMTPConfig where
  host : Str
  user : Str
  password : Str
  port : Nat
  secure : Bool
  debug : Bool
  timeout : Nat
  clientName : Str
  maxRetries : Nat
  retryDelay : Nat
  skipAuthentication : Bool
deriving DecidableEq

/-- The constructor's defaulting (SMTPClient.ts 94-106). Note the port
fallback reads the raw `config.secure` (`config.secure ? 465 : 587`, falsy
when the field is absent), while the `secure` field itself defaults to
`true` (`config.secure ?? true`). `hostname` stands for `os.hostname()`. -/
def resolveConfig (config : SMTPConfigurationIn) (hostname : Str) : SMTPConfig where
  host := config.host
  user := config.user
  password := config.password
  port := config.port?.getD (if config.secure?.getD false then 465 else 587)
  secure := config.secure?.getD true
  debug := config.debug?.getD false
  timeout := config.timeout?.getD 10000
  clientName := config.clientName?.getD hostname
  maxRetries := config.maxRetries?.getD 3
  retryDelay := config.retryDelay?.getD 1000
  skipAuthentication := config.skipAuthentication?.getD false

/-! ## Email options (src/interfaces/index.ts, `EmailOptions`) -/

/-- A field typed `string | string[]` in the interface — and, for `to`,
the dynamic value the facade's callers may actually pass (the README
documents list-valued recipients) even though the declared type is
`string`. -/
inductive JsVal where
  | s (v : Str)
  | arr (l : List Str)
deriving DecidableEq

/-- JavaScript template-literal rendering: an array stringifies as its
elements joined by commas. -/
def JsVal.render : JsVal → Str
  | .s v => v
  | .arr l => (l.intersperse (str ",")).flatten

/-- JavaScript truthiness of the optional field: absent and the empty
string are falsy; any array (even empty) is truthy. -/
def jsTruthy : Option JsVal → Bool
  | none => false
  | some (.s v) => !v.isEmpty
  | some (.arr _) => true

/-- Model of `Array.isArray(x) ? x : [x]` applied to a truthy optional field. -/
def jsAsList : JsVal → List Str
  | .s v => [v]
  | .arr l => l

/-- The recipient list an optional cc/bcc field expands to: nothing when
falsy, otherwise the field as a list. -/
def optJsList (v : Option JsVal) : List Str :=
  if jsTruthy v then jsAsList (v.getD (.s [])) else []

/-- Model of `validateEmail` as `sendEmail` calls it on the raw `to` value: on an
array, `email.split('@')` throws a `TypeError`, the surrounding
`try/catch` returns `false`. -/
def validateEmailJs : JsVal → Bool
  | .s v => validateEmail v
  | .arr _ => false

/-- Model of `EmailOptions` (src/interfaces/index.ts). `from` is spelled `fromAddr`
(`from` is a Lean keyword). `attachments` is declared in the interface but
never read by `SMTPClient`, so it is omitted. Custom headers are an
ordered name/value list (`Object.entries` order). -/
structure EmailOptions where
  fromAddr : Option Str := none
  toAddr : JsVal
  cc : Option JsVal := none
  bcc : Option JsVal := none
  replyTo : Option Str := none
  subject : Str
  text : Option Str := none
  html : Option Str := none
  headers : Option (List (Str × Str)) := none
deriving DecidableEq

/-- Model of `SendResult` (src/interfaces/index.ts). -/
structure SendResult where
  success : Bool
  messageId : Option Str := none
  message : Option Str := none
  error : Option Str := none
deriving DecidableEq

/-! ## Message composition (SMTPClient.ts 471-589) -/

/-- Lowercase an ASCII letter code unit (others unchanged). -/
def lowerU (u : Nat) : Nat := if 65 ≤ u ∧ u ≤ 90 then u + 32 else u

/-- ASCII lowercase of a string (sound for the ASCII-only names it is
applied to). -/
def lowerStr (s : Str) : Str := s.map lowerU

/-- Model of `generateMessageId` (SMTPClient.ts 471-475) with the 32-hex-character
random part passed in: `<random@domain>` where `domain` is the part of
`config.user` after `@`, or `localhost` when absent or empty. -/
def generateMessageId (user rand : Str) : Str :=
  let d := ((user.splitOn 64).get? 1).getD []
  str "<" ++ rand ++ str "@" ++ (if d.isEmpty then str "localhost" else d) ++ str ">"

/-- Model of `generateBoundary` (SMTPClient.ts 480-482) with the 24-hex-character
random part passed in. -/
def generateBoundary (rand : Str) : Str := str "----=_NextPart_" ++ rand

/-- Model of `options.from || this.config.user`: empty string and absence both fall
back to the configured user. -/
def resolveFrom (user : Str) (options : EmailOptions) : Str :=
  match options.fromAddr with
  | some f => if f.isEmpty then user else f
  | none => user

/-- The custom-header name filter `^[a-zA-Z0-9-]+$`. -/
def headerNameOk (name : Str) : Bool := !name.isEmpty && name.all isAlnumHyphen

/-- The reserved-name filter `^(from|to|cc|bcc|subject|date|message-id)$/i`. -/
def isReservedName (name : Str) : Bool :=
  lowerStr name ∈ [str "from", str "to", str "cc", str "bcc",
                   str "subject", str "date", str "message-id"]

/-- The custom-header lines pushed by `createEmailHeaders` (549-556):
names failing the character or reserved filters are skipped. -/
def customHeaderLines : List (Str × Str) → List Str
  | [] => []
  | (name, value) :: t =>
    if headerNameOk name && !isReservedName name then
      (name ++ str ": " ++ sanitizeHeader value) :: customHeaderLines t
    else customHeaderLines t

/-- Model of `createEmailHeaders` (SMTPClient.ts 519-559), with the message-id
random part and the `Date` header value passed in. `bcc` is never read.
`cc` joins array values by `, `; both `cc` and `replyTo` are emitted only
when truthy. -/
def createEmailHeaders (user rand date : Str) (options : EmailOptions) : List Str :=
  [str "From: " ++ sanitizeHeader (resolveFrom user options),
   str "To: " ++ sanitizeHeader options.toAddr.render,
   str "Subject: " ++ sanitizeHeader options.subject,
   str "Message-ID: " ++ generateMessageId user rand,
   str "Date: " ++ date,
   str "MIME-Version: 1.0"] ++
  (if jsTruthy options.cc then
    [str "Cc: " ++ sanitizeHeader
      (match options.cc with
       | some (.arr l) => ((l.intersperse (str ", ")).flatten)
       | some (.s v) => v
       | none => [])]
   else []) ++
  (match options.replyTo with
   | some r => if r.isEmpty then [] else [str "Reply-To: " ++ sanitizeHeader r]
   | none => []) ++
  (match options.headers with
   | some hs => customHeaderLines hs
   | none => [])

/-- Model of `Array.prototype.join('\r\n')`. -/
def joinCRLF : List Str → Str
  | [] => []
  | [a] => a
  | a :: b :: t => a ++ str "\r\n" ++ joinCRLF (b :: t)

/-- JavaScript truthiness of the raw `text`/`html` fields as destructured
in `createMultipartEmail` (absent or empty string are falsy). -/
def strTruthy : Option Str → Bool
  | none => false
  | some v => !v.isEmpty

/-- Model of `createMultipartEmail` (SMTPClient.ts 564-589): multipart/alternative
when both `text` and `html` are truthy, otherwise a single html or plain
part; bodies quoted-printable encoded. -/
def createMultipartEmail (user rand date bndRand : Str) (options : EmailOptions) : Str :=
  let headers := createEmailHeaders user rand date options
  let boundary := generateBoundary bndRand
  let text := options.text.getD []
  let html := options.html.getD []
  if strTruthy options.html && strTruthy options.text then
    joinCRLF (headers ++
      [str "Content-Type: multipart/alternative; boundary=\"" ++ boundary ++ str "\""]) ++
    str "\r\n\r\n--" ++ boundary ++
    str "\r\nContent-Type: text/plain; charset=utf-8\r\nContent-Transfer-Encoding: quoted-printable\r\n\r\n" ++
    encodeQuotedPrintable text ++
    str "\r\n\r\n--" ++ boundary ++
    str "\r\nContent-Type: text/html; charset=utf-8\r\nContent-Transfer-Encoding: quoted-printable\r\n\r\n" ++
    encodeQuotedPrintable html ++
    str "\r\n\r\n--" ++ boundary ++ str "--\r\n"
  else if strTruthy options.html then
    joinCRLF (headers ++
      [str "Content-Type: text/html; charset=utf-8",
       str "Content-Transfer-Encoding: quoted-printable"]) ++
    str "\r\n\r\n" ++ encodeQuotedPrintable html
  else
    joinCRLF (headers ++
      [str "Content-Type: text/plain; charset=utf-8",
       str "Content-Transfer-Encoding: quoted-printable"]) ++
    str "\r\n\r\n" ++ encodeQuotedPrintable text

/-- The 10 MiB ceiling (SMTPClient.ts 91). -/
def maxEmailSize : Nat := 10485760

/-! ## Command/response model (SMTPClient.ts 286-346, 628-779)

The network is abstracted as a response oracle: `respond c` is the
complete, single-line response text the server answers to command `c`
(multi-line response accumulation, lines 303-328, is not exercised by any
claim). `connect()` plus `smtpHandshake()` (lines 129-237 and 594-623,
socket and TLS callbacks) are abstracted as an injectable outcome
`handshake`: `Except.ok` when greeting, EHLO, optional STARTTLS and
authentication all succeed, `Except.error e` carrying the thrown message
otherwise. A handshake failure is modelled as leaving the client
disconnected. -/

/-- The environment of one delivery attempt. -/
structure AttemptEnv where
  handshake : Except Str Unit
  respond : Str → Str

/-- Decimal digits of `n` (`expectedCode.toString()`), with a fuel bound
far above any number in the program. -/
def decDigits : Nat → Nat → Str
  | 0, _ => []
  | fuel + 1, n => if n < 10 then [48 + n] else decDigits fuel (n / 10) ++ [48 + n % 10]

/-- Model of `n.toString()` for the naturals the client prints. -/
def natToStr (n : Nat) : Str := decDigits 30 n

/-- The response-completeness test of `sendCommand`'s data handler: the
final line matches `/^(\d{3})(.?)/` with the fourth character not `-`. -/
def respComplete (r : Str) : Bool :=
  match r with
  | d1 :: d2 :: d3 :: rest =>
    isDigit d1 && isDigit d2 && isDigit d3 &&
      (match rest with
       | [] => true
       | c :: _ => decide (c ≠ 45))
  | _ => false

/-- Model of `sendCommand` (SMTPClient.ts 286-346): resolves with the trimmed
response when its code equals `expectedCode`, rejects with
`SMTP Error: <response>` on a code mismatch, and with the timeout message
when no complete response is recognized. -/
def sendCommandM (timeout : Nat) (env : AttemptEnv) (command : Str) (expectedCode : Nat) :
    Except Str Str :=
  let r := env.respond command
  if respComplete r then
    if r.take 3 = natToStr expectedCode then .ok (trimJs r)
    else .error (str "SMTP Error: " ++ trimJs r)
  else .error (str "Command timeout after " ++ natToStr timeout ++ str "ms: " ++ command)

/-- The command `MAIL FROM:<from>`. -/
def mailFromCmd (fromA : Str) : Str := str "MAIL FROM:<" ++ fromA ++ str ">"

/-- The command `RCPT TO:<addr>`. -/
def rcptCmd (addr : Str) : Str := str "RCPT TO:<" ++ addr ++ str ">"

/-- The cc/bcc recipient loops (SMTPClient.ts 679-698): a `RCPT TO` per
syntactically valid element; the first rejected command aborts the
attempt. Returns the commands written and the error, if any. -/
def rcptLoop (timeout : Nat) (env : AttemptEnv) : List Str → List Str × Option Str
  | [] => ([], none)
  | a :: t =>
    if validateEmail a then
      match sendCommandM timeout env (rcptCmd a) 250 with
      | .ok _ =>
        let (tr, e) := rcptLoop timeout env t
        (rcptCmd a :: tr, e)
      | .error e => ([rcptCmd a], some e)
    else rcptLoop timeout env t

/-- Model of `/Message-ID: (.*)/i.exec(content)`: the text after the first
occurrence of `Message-ID: ` up to the next LF (the regex `.` matches CR),
trimmed. Our composed contents carry the header in this exact case. -/
def extractMessageId : Str → Option Str
  | [] => none
  | c :: t =>
    if (str "Message-ID: ").isPrefixOf (c :: t) then
      some (trimJs (((c :: t).drop (str "Message-ID: ").length).takeWhile (fun u => u ≠ 10)))
    else extractMessageId t

/-- Outcome of one delivery attempt, distinguishing the oversize early
`return` (SMTPClient.ts 705-710), which skips the retry machinery, from a
thrown error that the retry loop classifies. -/
inductive AttemptOut where
  | ok (messageId : Option Str)
  | sizeFail
  | err (msg : Str)
deriving DecidableEq

/-- One iteration of the retry loop's `try` block (SMTPClient.ts 668-723):
connect and handshake when not connected, `MAIL FROM`, `RCPT TO` for `to`
and each valid cc/bcc, `DATA`, compose, size-check, then the content
terminated by `CRLF.`. Returns the commands written, whether the client
is connected afterwards, and the outcome. -/
def attemptM (timeout : Nat) (env : AttemptEnv) (user rand date bndRand : Str)
    (options : EmailOptions) (fromA : Str) (connected : Bool) :
    List Str × Bool × AttemptOut :=
  match (if connected then .ok () else env.handshake : Except Str Unit) with
  | .error e => ([], false, .err e)
  | .ok () =>
    match sendCommandM timeout env (mailFromCmd fromA) 250 with
    | .error e => ([mailFromCmd fromA], true, .err e)
    | .ok _ =>
      let toCmd := rcptCmd options.toAddr.render
      match sendCommandM timeout env toCmd 250 with
      | .error e => ([mailFromCmd fromA, toCmd], true, .err e)
      | .ok _ =>
        match rcptLoop timeout env (optJsList options.cc) with
        | (ccTr, some e) => ([mailFromCmd fromA, toCmd] ++ ccTr, true, .err e)
        | (ccTr, none) =>
          match rcptLoop timeout env (optJsList options.bcc) with
          | (bccTr, some e) => ([mailFromCmd fromA, toCmd] ++ ccTr ++ bccTr, true, .err e)
          | (bccTr, none) =>
            match sendCommandM timeout env (str "DATA") 354 with
            | .error e =>
              ([mailFromCmd fromA, toCmd] ++ ccTr ++ bccTr ++ [str "DATA"], true, .err e)
            | .ok _ =>
              let emailContent := createMultipartEmail user rand date bndRand options
              if decide (emailContent.length > maxEmailSize) then
                ([mailFromCmd fromA, toCmd] ++ ccTr ++ bccTr ++ [str "DATA"], true, .sizeFail)
              else
                let contentCmd := emailContent ++ str "\r\n."
                match sendCommandM timeout env contentCmd 250 with
                | .error e =>
                  ([mailFromCmd fromA, toCmd] ++ ccTr ++ bccTr ++ [str "DATA", contentCmd],
                   true, .err e)
                | .ok _ =>
                  ([mailFromCmd fromA, toCmd] ++ ccTr ++ bccTr ++ [str "DATA", contentCmd],
                   true, .ok (extractMessageId emailContent))

/-- The permanent-error classification (SMTPClient.ts 729-732). -/
def isPermanentErr (msg : Str) : Bool :=
  hasSubstr msg (str "5.") || hasSubstr msg (str "Authentication failed") ||
    hasSubstr msg (str "certificate")

/-- The retry loop (SMTPClient.ts 653-759), with the iteration count as
fuel: `fuel` equals `maxRetries + 1 - retryCount`, so the base case is the
source's unreachable `Maximum retry count exceeded` fallback after the
loop. On a transient error the client sends a best-effort `RSET` when
still connected, drops the connection and retries; permanent errors and
exhausted retries return the failure; the oversize check returns its
failure directly. Returns (number of attempts made, commands written,
result). -/
def sendLoop (cfg : SMTPConfig) (envAt : Nat → AttemptEnv) (rand date bndRand : Str)
    (options : EmailOptions) (fromA : Str) :
    Nat → Nat → Bool → Nat × List Str × SendResult
  | 0, retryCount, _ =>
    (retryCount, [], { success := false, error := some (str "Maximum retry count exceeded") })
  | fuel + 1, retryCount, connected =>
    match attemptM cfg.timeout (envAt retryCount) cfg.user rand date bndRand
        options fromA connected with
    | (tr, _, .ok mid) =>
      (retryCount + 1, tr,
       { success := true, messageId := mid, message := some (str "Email sent successfully") })
    | (tr, _, .sizeFail) =>
      (retryCount + 1, tr,
       { success := false, error := some (str "Email size exceeds maximum allowed") })
    | (tr, connAfter, .err msg) =>
      if isPermanentErr msg || decide (cfg.maxRetries ≤ retryCount) then
        (retryCount + 1, tr, { success := false, error := some msg })
      else
        let rset : List Str := if connAfter then [str "RSET"] else []
        let (n, tr2, res) := sendLoop cfg envAt rand date bndRand options fromA
          fuel (retryCount + 1) false
        (n, tr ++ rset ++ tr2, res)

/-- The validation prologue of `sendEmail` (SMTPClient.ts 629-650):
`None` when validation passes, otherwise the returned error text. -/
def validationErrorOf (user : Str) (options : EmailOptions) : Option Str :=
  let fromA := resolveFrom user options
  let text := options.text.getD []
  let html := options.html.getD []
  let toFalsy :=
    match options.toAddr with
    | .s v => v.isEmpty
    | .arr _ => false
  if fromA.isEmpty || toFalsy || options.subject.isEmpty || (text.isEmpty && html.isEmpty) then
    some (str "Missing required email parameters (from, to, subject, and either text or html)")
  else if !(validateEmail fromA && validateEmailJs options.toAddr) then
    some (str "Invalid email address format")
  else none

/-- Model of `sendEmail` (SMTPClient.ts 628-760): validate, then run the retry
loop starting disconnected with `retryCount = 0`. Returns (number of
attempts made, commands written, result). -/
def sendEmailM (cfg : SMTPConfig) (envAt : Nat → AttemptEnv) (rand date bndRand : Str)
    (options : EmailOptions) : Nat × List Str × SendResult :=
  match validationErrorOf cfg.user options with
  | some e => (0, [], { success := false, error := some e })
  | none =>
    sendLoop cfg envAt rand date bndRand options (resolveFrom cfg.user options)
      (cfg.maxRetries + 1) 0 false

/-! ## close (SMTPClient.ts 762-779) -/

/-- The socket/connected fields of the client that `close` manipulates;
`socket = some ()` models a live socket object, `none` the `null` field. -/
structure ClientState where
  socket : Option Unit
  connected : Bool
deriving DecidableEq

/-- Model of `close` (SMTPClient.ts 762-779): when connected, try `QUIT` expecting
221 (when the socket is `null` the guarded `sendCommand` throws before
writing); any rejection is caught and only logged; the `finally` block
destroys and nulls the socket and clears `connected` whenever a socket
exists. Returns the new state and the commands written. -/
def closeM (timeout : Nat) (env : AttemptEnv) (s : ClientState) : ClientState × List Str :=
  let written : List Str :=
    if s.connected && s.socket.isSome then [str "QUIT"] else []
  -- the QUIT outcome (sendCommandM timeout env (str "QUIT") 221) is only
  -- logged; both branches of the try/catch fall through to `finally`
  let s' := if s.socket.isSome then { socket := none, connected := false } else s
  (s', written)

/-! ## Concrete fixtures used by witnesses and counterexamples -/

/-- An accommodating server: `354` to `DATA`, `250` to everything else. -/
def acceptingEnv : AttemptEnv where
  handshake := .ok ()
  respond := fun c => if c = str "DATA" then str "354 Send data" else str "250 OK"

/-- A server answering `MAIL FROM` with a bare `550` (a 5xx status whose
text contains no `5.`), `250` otherwise. -/
def env550 : AttemptEnv where
  handshake := .ok ()
  respond := fun c =>
    if (str "MAIL").isPrefixOf c then str "550 Mailbox unavailable" else str "250 OK"

/-- A server answering `MAIL FROM` with an enhanced-status 5xx rejection
(text contains `5.`), `250` otherwise. -/
def env550e : AttemptEnv where
  handshake := .ok ()
  respond := fun c =>
    if (str "MAIL").isPrefixOf c then str "550 5.7.1 Rejected" else str "250 OK"

/-- A server answering `MAIL FROM` with `421` (transient), `250` otherwise. -/
def env421 : AttemptEnv where
  handshake := .ok ()
  respond := fun c =>
    if (str "MAIL").isPrefixOf c then str "421 Service busy" else str "250 OK"

/-- A server refusing `QUIT`. -/
def envRefuseQuit : AttemptEnv where
  handshake := .ok ()
  respond := fun _ => str "500 Nope"

/-- A fully resolved example configuration. -/
def cfgEx : SMTPConfig where
  host := str "smtp.x.co"
  user := str "u@x.co"
  password := str "p"
  port := 465
  secure := true
  debug := true
  timeout := 10000
  clientName := str "client"
  maxRetries := 3
  retryDelay := 1000
  skipAuthentication := false

/-- A constructor input giving only the required fields (`port` and
`secure` omitted). -/
def cfgInMinimal : SMTPConfigurationIn where
  user := str "u@x.co"
  password := str "p"
  host := str "smtp.x.co"

/-- A message whose single bcc recipient is also the `to` recipient. -/
def optsBccOverlap : EmailOptions where
  toAddr := .s (str "a@x.co")
  bcc := some (.arr [str "a@x.co"])
  subject := str "Hi"
  text := some (str "Hello")

/-- A message with disjoint to/cc/bcc recipients. -/
def optsBccDisjoint : EmailOptions where
  toAddr := .s (str "a@x.co")
  cc := some (.arr [str "c@x.co"])
  bcc := some (.arr [str "b@x.co", str "not valid"])
  subject := str "Hi"
  text := some (str "Hello")

/-- The README's multi-recipient example as a `to` value. -/
def optsListTo : EmailOptions where
  toAddr := .arr [str "sam@acmecorp.cloud", str "sammy@acmecorp.cloud"]
  subject := str "Hi"
  text := some (str "Hello")

/-- A minimal single-recipient message. -/
def optsSmall : EmailOptions where
  toAddr := .s (str "r@y.co")
  subject := str "Hi"
  text := some (str "Hello")

/-- A text body of 10,485,761 `a` characters, one over the ceiling. -/
def bigText : Str := List.replicate 10485761 97

/-- The message `optsSmall` with the oversized body. -/
def optsBig : EmailOptions where
  toAddr := .s (str "r@y.co")
  subject := str "Hi"
  text := some bigText

/-- Derived description (used in theorem statements) of the envelope
phase commands a fully accepted attempt writes before the content:
`MAIL FROM`, `RCPT TO` for `to`, one `RCPT TO` per valid cc element, one
per valid bcc element, then `DATA`. -/
def envelopeCmds (o : EmailOptions) (fromA : Str) : List Str :=
  [mailFromCmd fromA, rcptCmd o.toAddr.render] ++
  ((optJsList o.cc).filter validateEmail).map rcptCmd ++
  ((optJsList o.bcc).filter validateEmail).map rcptCmd ++ [str "DATA"]

/-!
# Theorems

First sanity checks pinning the embedding to the repository's own unit
tests, then helper lemmas, then one theorem per claim of the
specification review.
-/

/-- The quoted-printable embedding reproduces the repository's own unit
tests (tests/unit/utils/encodeQuotedPrintable.test.ts), including the
pinned `a=b ↦ a=3D3Db` double encoding. -/
theorem sanity_qp_matches_unit_tests :
    encodeQuotedPrintable (str "Hello, world!") = str "Hello, world!" ∧
    encodeQuotedPrintable (str "a=b") = str "a=3D3Db" ∧
    encodeQuotedPrintable (str "Hallå") = str "Hall=C3=A5" ∧
    encodeQuotedPrintable (str "résumé") = str "r=C3=A9sum=C3=A9" ∧
    encodeQuotedPrintable (str "español") = str "espa=C3=B1ol" ∧
    encodeQuotedPrintable (str "Line 1\nLine 2") = str "Line 1\r\nLine 2" ∧
    encodeQuotedPrintable (str "Column1\tColumn2") = str "Column1=09Column2" := by
  decide

/-- The validator embedding reproduces a selection of the repository's own
unit tests (tests/unit/utils/validateEmail.test.ts). -/
theorem sanity_validateEmail_matches_unit_tests :
    validateEmail (str "simple@example.com") = true ∧
    validateEmail (str "x@example.com") = true ∧
    validateEmail (str "example@s.example") = true ∧
    validateEmail (str "user%example.com@example.org") = true ∧
    validateEmail (str "user@[192.168.2.1]") = true ∧
    validateEmail (str "user@[IPv6:2001:db8:1ff::a0b:dbd0]") = true ∧
    validateEmail (str "invalidemail.com") = false ∧
    validateEmail (str "user@") = false ∧
    validateEmail (str "@example.com") = false ∧
    validateEmail (str "user name@example.com") = false ∧
    validateEmail (str "user@domain@example.com") = false ∧
    validateEmail (str "user@domain.c") = false ∧
    validateEmail (str "user@127.0.0.1") = false ∧
    validateEmail (str ".user@example.com") = false ∧
    validateEmail (str "user@example..com") = false := by
  decide

/-- Claim C2 (code bug): the specification and RFC 2045 require a lone `=`
to encode as `=3D` (`encodeQuotedPrintable("a=b") = "a=3Db"`), but the
code substitutes `=3D` textually and then re-encodes that `=` in the
byte pass, emitting `a=3D3Db`. -/
theorem C2_qp_double_encodes_equals :
    encodeQuotedPrintable (str "a=b") = str "a=3D3Db" ∧
    str "a=3D3Db" ≠ str "a=3Db" := by decide

/-- Claim C5 (code bug): for the non-ASCII value `é` the header encoder
emits the hex of the UTF-16 code unit (`=E9`), not of the UTF-8 bytes
(`=C3=A9`) as the claim requires; for `中` it even emits four hex digits
(`=4E2D`), not two-digit byte escapes. The final conjunct records the
actual UTF-8 bytes of `é`. -/
theorem C5_header_encoder_uses_code_units :
    encodeHeaderValue (str "é") = str "=?UTF-8?Q?=E9?=" ∧
    encodeHeaderValue (str "é") ≠ str "=?UTF-8?Q?=C3=A9?=" ∧
    encodeHeaderValue (str "中") = str "=?UTF-8?Q?=4E2D?=" ∧
    utf8Encode (str "é") = [0xC3, 0xA9] := by decide

/-- Claim C4 (code bug): in an `AUTH LOGIN` exchange the exchange's last
command — the base64 password — is logged in the clear, because the
redaction test compares the mutable `lastCommand` against `AUTH LOGIN`
and by then `lastCommand` is the base64 user name. Hence two runs
differing only in the password produce different debug logs. -/
theorem C4_auth_login_password_not_redacted :
    debugLogFrom (str "EHLO client") (authenticateLoginCmds (str "user") (str "pass")) =
      [str "SMTP Command: [Credentials hidden]",
       str "SMTP Command: [Credentials hidden]",
       str "SMTP Command: cGFzcw=="] ∧
    b64ofStr (str "pass") = str "cGFzcw==" ∧
    debugLogFrom (str "EHLO client") (authenticateLoginCmds (str "user") (str "pass")) ≠
      debugLogFrom (str "EHLO client") (authenticateLoginCmds (str "user") (str "word")) := by
  decide

/-- Claim C7 (code bug): a list-valued `to` — here the README's very
example, both elements syntactically valid — fails `validateEmail`
wholesale (the split on a non-string throws and the catch returns
false), so `sendEmail` returns `Invalid email address format` after zero
attempts and zero commands instead of validating each element and
issuing one RCPT per element. -/
theorem C7_list_to_is_rejected :
    sendEmailM cfgEx (fun _ => acceptingEnv) (str "R") (str "D") (str "B") optsListTo =
      (0, [], { success := false, error := some (str "Invalid email address format") }) ∧
    validateEmail (str "sam@acmecorp.cloud") = true ∧
    validateEmail (str "sammy@acmecorp.cloud") = true := by decide

/-- Claim C8 counterexample: with `port` and `secure` both omitted the
constructor resolves `secure` to `true` yet `port` to `587`, not the
465 the claim asserts, because the port fallback tests the raw (absent)
`secure` field. -/
theorem C8_counterexample :
    cfgInMinimal.port? = none ∧ cfgInMinimal.secure? = none ∧
    (resolveConfig cfgInMinimal (str "mach")).secure = true ∧
    (resolveConfig cfgInMinimal (str "mach")).port = 587 ∧ (587 : Nat) ≠ 465 := by decide

/-- Claim C8 as amended: when `port` is omitted the effective port is 465
exactly when `secure` is explicitly `true`, and 587 when `secure` is
`false` or omitted — even though the effective `secure` still defaults
to `true`. -/
theorem C8_amended (c : SMTPConfigurationIn) (hostname : Str) (hp : c.port? = none) :
    (resolveConfig c hostname).port = (if c.secure? = some true then 465 else 587) ∧
    (resolveConfig c hostname).secure = c.secure?.getD true := by
  refine ⟨?_, rfl⟩
  simp only [resolveConfig, hp, Option.getD_none]
  cases hs : c.secure? with
  | none => simp
  | some b => cases b <;> simp

/-- Claim C8 witness: the amended statement evaluated on the minimal
configuration. -/
theorem C8_witness :
    cfgInMinimal.port? = none ∧
    (resolveConfig cfgInMinimal (str "mach")).port =
      (if cfgInMinimal.secure? = some true then 465 else 587) ∧
    (resolveConfig cfgInMinimal (str "mach")).secure = cfgInMinimal.secure?.getD true :=
  ⟨rfl, (C8_amended cfgInMinimal (str "mach") rfl).1,
   (C8_amended cfgInMinimal (str "mach") rfl).2⟩

/-- Claim C10: for every state in which a live connection implies a live
socket (the only states the client constructs), `close` leaves the
socket destroyed and null and `connected` false, a second `close` is a
no-op issuing no command, and when connected it writes exactly `QUIT` —
regardless of how the server answers, since any rejection is caught. -/
theorem C10_close_always_cleans_up (timeout : Nat) (env : AttemptEnv) (s : ClientState)
    (h : s.connected = true → s.socket.isSome = true) :
    (closeM timeout env s).1.socket = none ∧
    (closeM timeout env s).1.connected = false ∧
    closeM timeout env (closeM timeout env s).1 = ((closeM timeout env s).1, []) ∧
    (s.connected = true → (closeM timeout env s).2 = [str "QUIT"]) := by
  obtain ⟨sock, conn⟩ := s
  cases sock <;> cases conn <;> simp_all [closeM]

/-- Claim C10 witness: a connected client whose `QUIT` the server
refuses. -/
theorem C10_witness :
    ((⟨some (), true⟩ : ClientState).connected = true →
      (⟨some (), true⟩ : ClientState).socket.isSome = true) ∧
    (closeM 10000 envRefuseQuit ⟨some (), true⟩).1.socket = none ∧
    (closeM 10000 envRefuseQuit ⟨some (), true⟩).1.connected = false ∧
    closeM 10000 envRefuseQuit (closeM 10000 envRefuseQuit ⟨some (), true⟩).1 =
      ((closeM 10000 envRefuseQuit ⟨some (), true⟩).1, []) ∧
    (closeM 10000 envRefuseQuit ⟨some (), true⟩).2 = [str "QUIT"] :=
  ⟨fun _ => rfl,
   (C10_close_always_cleans_up 10000 envRefuseQuit ⟨some (), true⟩ (fun _ => rfl)).1,
   (C10_close_always_cleans_up 10000 envRefuseQuit ⟨some (), true⟩ (fun _ => rfl)).2.1,
   (C10_close_always_cleans_up 10000 envRefuseQuit ⟨some (), true⟩ (fun _ => rfl)).2.2.1,
   (C10_close_always_cleans_up 10000 envRefuseQuit ⟨some (), true⟩ (fun _ => rfl)).2.2.2 rfl⟩

/-! ## Quoted-printable identity lemmas (claims C9, C6) -/

/-- Line-ending normalization is the identity on strings without CR/LF. -/
theorem normalizeNewlines_id (s : Str) (h : ∀ u ∈ s, u ≠ 10 ∧ u ≠ 13) :
    normalizeNewlines s = s := by
  induction s with
  | nil => rfl
  | cons c t ih =>
    have hc := h c (List.mem_cons_self c t)
    have ht : ∀ u ∈ t, u ≠ 10 ∧ u ≠ 13 := fun u hu => h u (List.mem_cons_of_mem c hu)
    rw [normalizeNewlines.eq_def]
    split
    · rename_i heq; exact absurd heq (by simp)
    · rename_i heq; cases heq; exact absurd rfl hc.2
    · rename_i heq; cases heq; exact absurd rfl hc.1
    · rename_i heq; cases heq; rw [ih ht]

/-- The `=` substitution is the identity on strings without `=`. -/
theorem replaceEq_id (s : Str) (h : ∀ u ∈ s, u ≠ 61) : replaceEq s = s := by
  induction s with
  | nil => rfl
  | cons c t ih =>
    have hc := h c (List.mem_cons_self c t)
    have ht : ∀ u ∈ t, u ≠ 61 := fun u hu => h u (List.mem_cons_of_mem c hu)
    rw [replaceEq.eq_def]
    split
    · rename_i heq; exact absurd heq (by simp)
    · rename_i heq; cases heq; exact absurd rfl hc
    · rename_i heq; cases heq; rw [ih ht]

/-- UTF-8 conversion is the identity on ASCII code-unit sequences. -/
theorem utf8Encode_ascii (s : Str) (h : ∀ u ∈ s, u < 128) : utf8Encode s = s := by
  induction s with
  | nil => rfl
  | cons c t ih =>
    have hc := h c (List.mem_cons_self c t)
    have ht : ∀ u ∈ t, u < 128 := fun u hu => h u (List.mem_cons_of_mem c hu)
    cases t with
    | nil => simp [utf8Encode, utf8Unit, hc]
    | cons v t2 =>
      have hns : ¬((0xD800 ≤ c ∧ c < 0xDC00) ∧ (0xDC00 ≤ v ∧ v < 0xE000)) := by
        intro hx; omega
      simp only [utf8Encode, if_neg hns]
      rw [ih ht]
      simp [utf8Unit, hc]

/-- For a printable non-`=` byte, the loop's chunk is the byte itself. -/
theorem qpChunk_printable (b : Nat) (hb : 32 ≤ b ∧ b ≤ 126 ∧ b ≠ 61) :
    qpChunk b = [b] := by
  have : (33 ≤ b ∧ b ≤ 126 ∧ b ≠ 61) ∨ b = 32 := by omega
  simp [qpChunk, this]

/-- The byte-wise pass is the identity on printable non-`=` bytes while
the line stays within 75 characters. -/
theorem qpStep_id (l : List Nat) (ll : Nat) (h : ∀ b ∈ l, 32 ≤ b ∧ b ≤ 126 ∧ b ≠ 61)
    (hlen : ll + l.length ≤ 75) : qpStep l ll = l := by
  induction l generalizing ll with
  | nil => rfl
  | cons b t ih =>
    have hb := h b (List.mem_cons_self b t)
    have ht : ∀ u ∈ t, 32 ≤ u ∧ u ≤ 126 ∧ u ≠ 61 := fun u hu => h u (List.mem_cons_of_mem b hu)
    have hb10 : ¬(b = 10) := by omega
    have hb1310 : ¬(b = 13 ∨ b = 10) := by omega
    have hchunk := qpChunk_printable b hb
    simp only [qpStep, if_neg hb10, hchunk, List.length_cons, List.length_nil]
    have hlen1 : ¬(ll + (0 + 1) > 75 ∧ ¬(b = 13 ∨ b = 10)) := by
      intro hx
      simp only [List.length_cons] at hlen
      omega
    rw [if_neg hlen1]
    simp only [List.singleton_append, List.cons.injEq, true_and]
    refine ih _ ht ?_
    simp only [List.length_cons] at hlen
    omega

/-- Claim C9 counterexample: 76 copies of `a` — printable ASCII with no
`=`, CR, LF or TAB — do not encode to themselves: the 76th character
triggers a soft line break. -/
theorem C9_counterexample :
    (List.replicate 76 97).all
      (fun u => decide (32 ≤ u) && decide (u ≤ 126) && decide (u ≠ 61) &&
                decide (u ≠ 9) && decide (u ≠ 10) && decide (u ≠ 13)) = true ∧
    encodeQuotedPrintable (List.replicate 76 97) ≠ List.replicate 76 97 ∧
    encodeQuotedPrintable (List.replicate 76 97) =
      List.replicate 75 97 ++ str "=\r\n" ++ [97] := by decide

/-- Claim C9 as amended: the encoder is the identity on printable-ASCII
strings (no `=`, and CR/LF/TAB are outside the printable range) of
length at most 75; beyond 75 characters soft line breaks are inserted. -/
theorem C9_amended (s : Str) (h : ∀ u ∈ s, 32 ≤ u ∧ u ≤ 126 ∧ u ≠ 61)
    (hlen : s.length ≤ 75) : encodeQuotedPrintable s = s := by
  have h10 : ∀ u ∈ s, u ≠ 10 ∧ u ≠ 13 := fun u hu => by have := h u hu; omega
  have h61 : ∀ u ∈ s, u ≠ 61 := fun u hu => (h u hu).2.2
  have h128 : ∀ u ∈ s, u < 128 := fun u hu => by have := h u hu; omega
  unfold encodeQuotedPrintable
  rw [normalizeNewlines_id s h10, replaceEq_id s h61, utf8Encode_ascii s h128]
  exact qpStep_id s 0 h (by omega)

/-- Claim C9 witness: the amended statement evaluated on
`Hello, world!`. -/
theorem C9_witness :
    (∀ u ∈ str "Hello, world!", 32 ≤ u ∧ u ≤ 126 ∧ u ≠ 61) ∧
    (str "Hello, world!").length ≤ 75 ∧
    encodeQuotedPrintable (str "Hello, world!") = str "Hello, world!" :=
  ⟨by decide, by decide, C9_amended (str "Hello, world!") (by decide) (by decide)⟩

/-! ## Protocol helper lemmas (claims C1, C3, C6) -/

theorem strMAILlit : str "MAIL FROM:<" = [77, 65, 73, 76, 32, 70, 82, 79, 77, 58, 60] := by
  decide

theorem strRCPTlit : str "RCPT TO:<" = [82, 67, 80, 84, 32, 84, 79, 58, 60] := by decide

theorem strDATAlit : str "DATA" = [68, 65, 84, 65] := by decide

theorem strGTlit : str ">" = [62] := by decide

theorem mailFromCmd_ne_DATA (f : Str) : mailFromCmd f ≠ str "DATA" := by
  simp [mailFromCmd, strMAILlit, strDATAlit, strGTlit]

theorem rcptCmd_ne_DATA (a : Str) : rcptCmd a ≠ str "DATA" := by
  simp [rcptCmd, strRCPTlit, strDATAlit, strGTlit]

theorem mailFromCmd_ne_rcptCmd (f b : Str) : mailFromCmd f ≠ rcptCmd b := by
  simp [mailFromCmd, rcptCmd, strMAILlit, strRCPTlit, strGTlit]

theorem rcptCmd_inj (a b : Str) : rcptCmd a = rcptCmd b ↔ a = b := by
  simp [rcptCmd, strRCPTlit, strGTlit]

theorem contentCmd_ne_DATA (s : Str) : s ++ str "\r\n." ≠ str "DATA" := by
  intro h
  have h2 := congrArg List.getLast? h
  rw [show str "\r\n." = [13, 10, 46] from by decide,
      show s ++ [13, 10, 46] = (s ++ [13, 10]) ++ [46] from by simp] at h2
  rw [List.getLast?_concat] at h2
  rw [strDATAlit] at h2
  simp at h2

theorem contentCmd_ne_rcptCmd (s b : Str) : s ++ str "\r\n." ≠ rcptCmd b := by
  intro h
  have h2 := congrArg List.getLast? h
  rw [show str "\r\n." = [13, 10, 46] from by decide,
      show s ++ [13, 10, 46] = (s ++ [13, 10]) ++ [46] from by simp] at h2
  rw [List.getLast?_concat] at h2
  rw [show rcptCmd b = (str "RCPT TO:<" ++ b) ++ [62] from by simp [rcptCmd, strGTlit],
      List.getLast?_concat] at h2
  simp at h2

/-- A `250 OK` answer makes `sendCommand` (expecting 250) resolve. -/
theorem sendCommandM_250 (timeout : Nat) (env : AttemptEnv) (cmd : Str)
    (h : env.respond cmd = str "250 OK") :
    sendCommandM timeout env cmd 250 = .ok (str "250 OK") := by
  simp only [sendCommandM, h]
  rw [if_pos (show respComplete (str "250 OK") = true by decide),
      if_pos (show List.take 3 (str "250 OK") = natToStr 250 by decide),
      show trimJs (str "250 OK") = str "250 OK" from by decide]

/-- A `354 Send data` answer makes `sendCommand` (expecting 354) resolve. -/
theorem sendCommandM_354 (timeout : Nat) (env : AttemptEnv) (cmd : Str)
    (h : env.respond cmd = str "354 Send data") :
    sendCommandM timeout env cmd 354 = .ok (str "354 Send data") := by
  simp only [sendCommandM, h]
  rw [if_pos (show respComplete (str "354 Send data") = true by decide),
      if_pos (show List.take 3 (str "354 Send data") = natToStr 354 by decide),
      show trimJs (str "354 Send data") = str "354 Send data" from by decide]

/-- A complete answer whose code is not the expected 250 makes
`sendCommand` reject with the response text. -/
theorem sendCommandM_fail (timeout : Nat) (env : AttemptEnv) (cmd : Str) (r : Str)
    (h : env.respond cmd = r) (hcomp : respComplete r = true)
    (hne : r.take 3 ≠ natToStr 250) :
    sendCommandM timeout env cmd 250 = .error (str "SMTP Error: " ++ trimJs r) := by
  simp [sendCommandM, h, hcomp, hne]

/-- Under an all-accepting server, the cc/bcc loop writes exactly one
`RCPT TO` per valid element and succeeds. -/
theorem rcptLoop_accepting (timeout : Nat) (env : AttemptEnv)
    (hr : ∀ c, env.respond c = if c = str "DATA" then str "354 Send data" else str "250 OK")
    (l : List Str) :
    rcptLoop timeout env l = ((l.filter validateEmail).map rcptCmd, none) := by
  induction l with
  | nil => simp [rcptLoop]
  | cons a t ih =>
    by_cases hv : validateEmail a
    · have hra : env.respond (rcptCmd a) = str "250 OK" := by
        rw [hr, if_neg (rcptCmd_ne_DATA a)]
      have hs := sendCommandM_250 timeout env (rcptCmd a) hra
      simp [rcptLoop, hv, hs, ih]
    · simp [rcptLoop, hv, ih, List.filter_cons]

/-- Under an all-accepting server, one attempt writes the envelope
commands and then either stops at the size ceiling or transmits the
content and succeeds. -/
theorem attemptM_accepting (timeout : Nat) (env : AttemptEnv)
    (user rand date bndRand : Str) (o : EmailOptions) (fromA : Str) (connected : Bool)
    (hh : env.handshake = Except.ok ())
    (hr : ∀ c, env.respond c = if c = str "DATA" then str "354 Send data" else str "250 OK") :
    attemptM timeout env user rand date bndRand o fromA connected =
      (if (createMultipartEmail user rand date bndRand o).length > maxEmailSize then
        (envelopeCmds o fromA, true, .sizeFail)
      else
        (envelopeCmds o fromA ++ [createMultipartEmail user rand date bndRand o ++ str "\r\n."],
         true,
         .ok (extractMessageId (createMultipartEmail user rand date bndRand o)))) := by
  have h1 : env.respond (mailFromCmd fromA) = str "250 OK" := by
    rw [hr, if_neg (mailFromCmd_ne_DATA fromA)]
  have h2 : env.respond (rcptCmd o.toAddr.render) = str "250 OK" := by
    rw [hr, if_neg (rcptCmd_ne_DATA _)]
  have hD : env.respond (str "DATA") = str "354 Send data" := by rw [hr, if_pos rfl]
  have hc1 := sendCommandM_250 timeout env _ h1
  have hc2 := sendCommandM_250 timeout env _ h2
  have hcD := sendCommandM_354 timeout env _ hD
  have hrlcc := rcptLoop_accepting timeout env hr (optJsList o.cc)
  have hrlbcc := rcptLoop_accepting timeout env hr (optJsList o.bcc)
  have hcontent : env.respond
      (createMultipartEmail user rand date bndRand o ++ str "\r\n.") = str "250 OK" := by
    rw [hr, if_neg (contentCmd_ne_DATA _)]
  have hc3 := sendCommandM_250 timeout env _ hcontent
  cases connected <;>
    simp only [attemptM, hh, hc1, hc2, hcD, hrlcc, hrlbcc, hc3, envelopeCmds] <;>
    split <;>
    rename_i hsz <;>
    simp_all [envelopeCmds]

/-- When the server rejects `MAIL FROM` with a complete non-250 response,
the attempt writes only that command and throws its text. -/
theorem attemptM_mailFail (timeout : Nat) (env : AttemptEnv)
    (user rand date bndRand : Str) (o : EmailOptions) (fromA : Str) (connected : Bool)
    (r : Str) (hh : env.handshake = Except.ok ())
    (hm : env.respond (mailFromCmd fromA) = r) (hcomp : respComplete r = true)
    (hne : r.take 3 ≠ natToStr 250) :
    attemptM timeout env user rand date bndRand o fromA connected =
      ([mailFromCmd fromA], true, .err (str "SMTP Error: " ++ trimJs r)) := by
  have hfail := sendCommandM_fail timeout env (mailFromCmd fromA) r hm hcomp hne
  cases connected <;> simp only [attemptM, hh, hfail] <;> rfl

/-- If every attempt throws the same transient error, the loop runs all
`maxRetries + 1` iterations and returns that error. -/
theorem sendLoop_all_transient (cfg : SMTPConfig) (envAt : Nat → AttemptEnv)
    (rand date bndRand : Str) (o : EmailOptions) (fromA : Str) (tr0 : List Str) (m : Str)
    (hatt : ∀ k connected, attemptM cfg.timeout (envAt k) cfg.user rand date bndRand
      o fromA connected = (tr0, true, .err m))
    (htrans : isPermanentErr m = false) :
    ∀ fuel k, k + fuel = cfg.maxRetries →
      (sendLoop cfg envAt rand date bndRand o fromA (fuel + 1) k false).1 =
        cfg.maxRetries + 1 ∧
      (sendLoop cfg envAt rand date bndRand o fromA (fuel + 1) k false).2.2 =
        { success := false, error := some m } := by
  intro fuel
  induction fuel with
  | zero =>
    intro k hk
    have hk' : k = cfg.maxRetries := by omega
    subst hk'
    rw [sendLoop]
    simp [hatt, htrans]
  | succ fuel ih =>
    intro k hk
    have ih' := ih (k + 1) (by omega)
    have hguard : ¬((isPermanentErr m || decide (cfg.maxRetries ≤ k)) = true) := by
      simp [htrans]; omega
    rw [sendLoop]
    simp only [hatt]
    rw [if_neg hguard]
    rcases he : sendLoop cfg envAt rand date bndRand o fromA (fuel + 1) (k + 1) false
      with ⟨n, tr2, res⟩
    rw [he] at ih'
    simpa using ih'

/-- Claim C3 counterexample: a `550 Mailbox unavailable` rejection — a
response whose text begins with a 5xx code but contains no `5.` — is
classified transient: with `maxRetries = 3` the orchestrator performs 4
attempts, not the single attempt the claim asserts for 5xx. -/
theorem C3_counterexample :
    (str "550").isPrefixOf (str "550 Mailbox unavailable") = true ∧
    cfgEx.maxRetries = 3 ∧
    (sendEmailM cfgEx (fun _ => env550) (str "R") (str "D") (str "B") optsSmall).1 = 4 ∧
    (sendEmailM cfgEx (fun _ => env550) (str "R") (str "D") (str "B") optsSmall).2.2 =
      { success := false, error := some (str "SMTP Error: 550 Mailbox unavailable") } := by
  decide

/-- Claim C3 as amended: with every attempt's `MAIL FROM` answered by the
same complete non-250 response, the orchestrator performs exactly one
attempt when the surfaced `SMTP Error: ...` text is classified permanent
(it contains `5.`, `Authentication failed`, or `certificate`), and
`max_retries + 1` attempts when it is not — merely beginning with a 5xx
code does not make a response permanent. Either way the rejection text
is returned. -/
theorem C3_amended (cfg : SMTPConfig) (envAt : Nat → AttemptEnv)
    (rand date bndRand : Str) (o : EmailOptions) (r : Str)
    (hv : validationErrorOf cfg.user o = none)
    (hh : ∀ k, (envAt k).handshake = Except.ok ())
    (hm : ∀ k, (envAt k).respond (mailFromCmd (resolveFrom cfg.user o)) = r)
    (hcomp : respComplete r = true)
    (hne : r.take 3 ≠ natToStr 250) :
    ((isPermanentErr (str "SMTP Error: " ++ trimJs r) = true →
       (sendEmailM cfg envAt rand date bndRand o).1 = 1) ∧
     (isPermanentErr (str "SMTP Error: " ++ trimJs r) = false →
       (sendEmailM cfg envAt rand date bndRand o).1 = cfg.maxRetries + 1)) ∧
    (sendEmailM cfg envAt rand date bndRand o).2.2 =
      { success := false, error := some (str "SMTP Error: " ++ trimJs r) } := by
  have hatt : ∀ k connected, attemptM cfg.timeout (envAt k) cfg.user rand date bndRand
      o (resolveFrom cfg.user o) connected =
      ([mailFromCmd (resolveFrom cfg.user o)], true,
       .err (str "SMTP Error: " ++ trimJs r)) := fun k connected =>
    attemptM_mailFail cfg.timeout (envAt k) cfg.user rand date bndRand o _ connected r
      (hh k) (hm k) hcomp hne
  have h0 : sendEmailM cfg envAt rand date bndRand o =
      sendLoop cfg envAt rand date bndRand o (resolveFrom cfg.user o)
        (cfg.maxRetries + 1) 0 false := by
    simp [sendEmailM, hv]
  by_cases hp : isPermanentErr (str "SMTP Error: " ++ trimJs r) = true
  · have hrun : sendLoop cfg envAt rand date bndRand o (resolveFrom cfg.user o)
        (cfg.maxRetries + 1) 0 false =
        (1, [mailFromCmd (resolveFrom cfg.user o)],
         { success := false, error := some (str "SMTP Error: " ++ trimJs r) }) := by
      rw [sendLoop]
      simp [hatt, hp]
    refine ⟨⟨fun _ => ?_, fun hq => ?_⟩, ?_⟩
    · rw [h0, hrun]
    · rw [hq] at hp
      exact absurd hp (by decide)
    · rw [h0, hrun]
  · rw [Bool.not_eq_true] at hp
    have hloop := sendLoop_all_transient cfg envAt rand date bndRand o
      (resolveFrom cfg.user o) _ _ hatt hp cfg.maxRetries 0 (by omega)
    refine ⟨⟨fun hq => ?_, fun _ => ?_⟩, ?_⟩
    · rw [hq] at hp
      exact absurd hp (by decide)
    · rw [h0]
      exact hloop.1
    · rw [h0]
      exact hloop.2

/-- Claim C3 witness: the amended statement evaluated on a permanent
`550 5.7.1 Rejected` (one attempt) and a transient `421 Service busy`
(`maxRetries + 1 = 4` attempts). -/
theorem C3_witness :
    validationErrorOf cfgEx.user optsSmall = none ∧
    respComplete (str "550 5.7.1 Rejected") = true ∧
    isPermanentErr (str "SMTP Error: " ++ trimJs (str "550 5.7.1 Rejected")) = true ∧
    (sendEmailM cfgEx (fun _ => env550e) (str "R") (str "D") (str "B") optsSmall).1 = 1 ∧
    respComplete (str "421 Service busy") = true ∧
    isPermanentErr (str "SMTP Error: " ++ trimJs (str "421 Service busy")) = false ∧
    (sendEmailM cfgEx (fun _ => env421) (str "R") (str "D") (str "B") optsSmall).1 =
      cfgEx.maxRetries + 1 :=
  ⟨by decide, by decide, by decide,
   (C3_amended cfgEx (fun _ => env550e) (str "R") (str "D") (str "B") optsSmall
      (str "550 5.7.1 Rejected") (by decide) (fun _ => rfl) (fun _ => rfl)
      (by decide) (by decide)).1.1 (by decide),
   by decide, by decide,
   (C3_amended cfgEx (fun _ => env421) (str "R") (str "D") (str "B") optsSmall
      (str "421 Service busy") (by decide) (fun _ => rfl) (fun _ => rfl)
      (by decide) (by decide)).1.2 (by decide)⟩

/-! ## Size-ceiling lemmas (claim C6) -/

/-- Every byte contributes at least one output character, so the
byte-wise pass never shrinks its input. -/
theorem le_length_qpStep (l : List Nat) : ∀ ll : Nat, l.length ≤ (qpStep l ll).length := by
  induction l with
  | nil => intro ll; simp [qpStep]
  | cons b t ih =>
    intro ll
    have hchunk : 1 ≤ (qpChunk b).length := by
      unfold qpChunk
      split
      · simp
      · split <;> simp
    simp only [qpStep]
    by_cases hbr : ((if b = 10 then 0 else ll) + (qpChunk b).length > 75 ∧ ¬(b = 13 ∨ b = 10))
    · rw [if_pos hbr]
      simp only [List.length_cons, List.length_append]
      have h1 := ih (qpChunk b).length
      omega
    · rw [if_neg hbr]
      simp only [List.length_cons, List.length_append]
      have h1 := ih ((if b = 10 then 0 else ll) + (qpChunk b).length)
      omega

/-- The encoder never shrinks a CR/LF/`=`-free ASCII input. -/
theorem le_length_encodeQuotedPrintable (s : Str)
    (h : ∀ u ∈ s, u ≠ 10 ∧ u ≠ 13 ∧ u ≠ 61 ∧ u < 128) :
    s.length ≤ (encodeQuotedPrintable s).length := by
  unfold encodeQuotedPrintable
  rw [normalizeNewlines_id s (fun u hu => ⟨(h u hu).1, (h u hu).2.1⟩),
      replaceEq_id s (fun u hu => (h u hu).2.2.1),
      utf8Encode_ascii s (fun u hu => (h u hu).2.2.2)]
  exact le_length_qpStep s 0

/-- Without a truthy `html`, the composed message contains the encoded
`text` body, so it is at least as long. -/
theorem createMultipartEmail_textOnly_length (user rand date bndRand : Str)
    (o : EmailOptions) (hhtml : strTruthy o.html = false) :
    (encodeQuotedPrintable (o.text.getD [])).length ≤
      (createMultipartEmail user rand date bndRand o).length := by
  simp only [createMultipartEmail, hhtml, Bool.false_and, Bool.and_eq_true,
    Bool.false_eq_true, false_and, if_false, List.length_append]
  omega

/-- The composed message for `optsBig` exceeds the 10 MiB ceiling. -/
theorem optsBig_content_oversize (user rand date bndRand : Str) :
    (createMultipartEmail user rand date bndRand optsBig).length > maxEmailSize := by
  have h1 : (encodeQuotedPrintable (optsBig.text.getD [])).length ≤
      (createMultipartEmail user rand date bndRand optsBig).length :=
    createMultipartEmail_textOnly_length user rand date bndRand optsBig rfl
  have h2 : bigText.length ≤ (encodeQuotedPrintable bigText).length := by
    refine le_length_encodeQuotedPrintable bigText (fun u hu => ?_)
    have := List.eq_of_mem_replicate hu
    omega
  have h3 : optsBig.text.getD [] = bigText := rfl
  have h4 : bigText.length = 10485761 := by
    rw [bigText, List.length_replicate]
  rw [h3] at h1
  unfold maxEmailSize
  omega

theorem contentCmd_ne_mailFromCmd (s f : Str) : s ++ str "\r\n." ≠ mailFromCmd f := by
  intro h
  have h2 := congrArg List.getLast? h
  rw [show str "\r\n." = [13, 10, 46] from by decide,
      show s ++ [13, 10, 46] = (s ++ [13, 10]) ++ [46] from by simp] at h2
  rw [List.getLast?_concat] at h2
  rw [show mailFromCmd f = (str "MAIL FROM:<" ++ f) ++ [62] from by simp [mailFromCmd, strGTlit],
      List.getLast?_concat] at h2
  simp at h2

theorem DATA_mem_envelopeCmds (o : EmailOptions) (fromA : Str) :
    str "DATA" ∈ envelopeCmds o fromA := by
  simp [envelopeCmds]

theorem contentCmd_not_mem_envelopeCmds (o : EmailOptions) (fromA s : Str) :
    s ++ str "\r\n." ∉ envelopeCmds o fromA := by
  intro h
  simp only [envelopeCmds, List.mem_append, List.mem_cons, List.mem_singleton,
    List.mem_map, List.not_mem_nil, or_false] at h
  rcases h with (((h | h) | ⟨a, -, h⟩) | ⟨a, -, h⟩) | h
  · exact contentCmd_ne_mailFromCmd s fromA h
  · exact contentCmd_ne_rcptCmd s _ h
  · exact contentCmd_ne_rcptCmd s a h.symm
  · exact contentCmd_ne_rcptCmd s a h.symm
  · exact contentCmd_ne_DATA s h

/-- With validation passing, the first attempt's handshake and envelope
accepted, and the composed message over the ceiling, `sendEmail` stops
after that one attempt having written the envelope commands (ending in
`DATA`) and returns the size failure. -/
theorem sendEmailM_oversize (cfg : SMTPConfig) (envAt : Nat → AttemptEnv)
    (rand date bndRand : Str) (o : EmailOptions)
    (hv : validationErrorOf cfg.user o = none)
    (hh : (envAt 0).handshake = Except.ok ())
    (hr : ∀ c, (envAt 0).respond c = if c = str "DATA" then str "354 Send data"
      else str "250 OK")
    (hbig : (createMultipartEmail cfg.user rand date bndRand o).length > maxEmailSize) :
    sendEmailM cfg envAt rand date bndRand o =
      (1, envelopeCmds o (resolveFrom cfg.user o),
       { success := false, error := some (str "Email size exceeds maximum allowed") }) := by
  have hatt := attemptM_accepting cfg.timeout (envAt 0) cfg.user rand date bndRand o
    (resolveFrom cfg.user o) false hh hr
  rw [if_pos hbig] at hatt
  have h0 : sendEmailM cfg envAt rand date bndRand o =
      sendLoop cfg envAt rand date bndRand o (resolveFrom cfg.user o)
        (cfg.maxRetries + 1) 0 false := by
    simp [sendEmailM, hv]
  rw [h0, sendLoop]
  simp [hatt]

/-- Claim C6 as amended: a message whose composed blob exceeds 10,485,760
units makes `sendEmail` return the size failure after exactly one
attempt (no retry), but only after the `DATA` command has been written —
the content itself, `blob CRLF.`, is never transmitted. -/
theorem C6_amended (cfg : SMTPConfig) (envAt : Nat → AttemptEnv)
    (rand date bndRand : Str) (o : EmailOptions)
    (hv : validationErrorOf cfg.user o = none)
    (hh : (envAt 0).handshake = Except.ok ())
    (hr : ∀ c, (envAt 0).respond c = if c = str "DATA" then str "354 Send data"
      else str "250 OK")
    (hbig : (createMultipartEmail cfg.user rand date bndRand o).length > maxEmailSize) :
    (sendEmailM cfg envAt rand date bndRand o).1 = 1 ∧
    (sendEmailM cfg envAt rand date bndRand o).2.2 =
      { success := false, error := some (str "Email size exceeds maximum allowed") } ∧
    str "DATA" ∈ (sendEmailM cfg envAt rand date bndRand o).2.1 ∧
    (createMultipartEmail cfg.user rand date bndRand o ++ str "\r\n.") ∉
      (sendEmailM cfg envAt rand date bndRand o).2.1 := by
  rw [sendEmailM_oversize cfg envAt rand date bndRand o hv hh hr hbig]
  exact ⟨rfl, rfl, DATA_mem_envelopeCmds o _, contentCmd_not_mem_envelopeCmds o _ _⟩

/-- Claim C6 counterexample: on a concrete oversized message the failure
is returned only after `DATA` was written to the server — the claim's
`before the DATA command is sent` is false. -/
theorem C6_counterexample :
    (sendEmailM cfgEx (fun _ => acceptingEnv) (str "R") (str "D") (str "B") optsBig).2.2 =
      { success := false, error := some (str "Email size exceeds maximum allowed") } ∧
    str "DATA" ∈
      (sendEmailM cfgEx (fun _ => acceptingEnv) (str "R") (str "D") (str "B") optsBig).2.1 := by
  rw [sendEmailM_oversize cfgEx (fun _ => acceptingEnv) (str "R") (str "D") (str "B") optsBig
    (by decide) rfl (fun c => rfl) (optsBig_content_oversize cfgEx.user (str "R") (str "D") (str "B"))]
  exact ⟨rfl, DATA_mem_envelopeCmds optsBig _⟩

/-- Claim C6 witness: the amended statement evaluated on the concrete
oversized message. -/
theorem C6_witness :
    validationErrorOf cfgEx.user optsBig = none ∧
    (createMultipartEmail cfgEx.user (str "R") (str "D") (str "B") optsBig).length >
      maxEmailSize ∧
    (sendEmailM cfgEx (fun _ => acceptingEnv) (str "R") (str "D") (str "B") optsBig).1 = 1 ∧
    str "DATA" ∈
      (sendEmailM cfgEx (fun _ => acceptingEnv) (str "R") (str "D") (str "B") optsBig).2.1 :=
  ⟨by decide, optsBig_content_oversize cfgEx.user (str "R") (str "D") (str "B"),
   (C6_amended cfgEx (fun _ => acceptingEnv) (str "R") (str "D") (str "B") optsBig
      (by decide) rfl (fun c => rfl)
      (optsBig_content_oversize cfgEx.user (str "R") (str "D") (str "B"))).1,
   (C6_amended cfgEx (fun _ => acceptingEnv) (str "R") (str "D") (str "B") optsBig
      (by decide) rfl (fun c => rfl)
      (optsBig_content_oversize cfgEx.user (str "R") (str "D") (str "B"))).2.2.1⟩

/-! ## Bcc lemmas (claim C1) -/

theorem count_map_rcptCmd (l : List Str) (b : Str) :
    (l.map rcptCmd).count (rcptCmd b) = l.count b := by
  induction l with
  | nil => rfl
  | cons a t ih => simp [List.count_cons, ih, rcptCmd_inj]

theorem count_filter_validate (l : List Str) (b : Str) (hb : validateEmail b = true) :
    (l.filter validateEmail).count b = l.count b := by
  induction l with
  | nil => rfl
  | cons a t ih =>
    by_cases ha : validateEmail a = true
    · simp [List.filter_cons, ha, List.count_cons, ih]
    · have hne : ¬(b = a) := fun h => ha (h ▸ hb)
      simp [List.filter_cons, ha, List.count_cons, ih, hne]

theorem not_bcc_prefix_head (u : Nat) (hu : u ≠ 98) (x : Str) :
    (str "bcc:").isPrefixOf (u :: x) = false := by
  rw [show str "bcc:" = [98, 99, 99, 58] from by decide]
  have h98 : (98 == u) = false := by
    simp only [beq_eq_false_iff_ne, ne_eq]
    exact fun h => hu h.symm
  simp [List.isPrefixOf, h98]

/-- A line starting with a literal whose lowercase head is not `b` cannot
carry a `bcc:` prefix. -/
theorem not_bcc_prefix_append (p x : Str)
    (hp : (List.map lowerU p).headD 0 ≠ 98 ∧ List.map lowerU p ≠ []) :
    (str "bcc:").isPrefixOf (lowerStr (p ++ x)) = false := by
  rcases hl : List.map lowerU p with - | ⟨u, rest⟩
  · exact absurd hl hp.2
  · rw [lowerStr, List.map_append, hl, List.cons_append]
    refine not_bcc_prefix_head u ?_ _
    rw [hl] at hp
    simpa using hp.1

theorem lowerU_ne_colon (d : Nat) (hd : isAlnumHyphen d = true) : lowerU d ≠ 58 := by
  simp only [isAlnumHyphen, isAlnum, isDigit, Bool.or_eq_true, Bool.and_eq_true,
    decide_eq_true_eq] at hd
  unfold lowerU
  split <;> omega

/-- A filtered custom header line — alphanumeric-or-hyphen name, not a
reserved case-insensitive name — cannot carry a `bcc:` prefix. -/
theorem not_bcc_prefix_custom (name v : Str) (hok : headerNameOk name = true)
    (hres : isReservedName name = false) :
    (str "bcc:").isPrefixOf (lowerStr (name ++ str ": " ++ v)) = false := by
  rcases name with - | ⟨a, - | ⟨b, - | ⟨c, - | ⟨d, t⟩⟩⟩⟩
  · simp [headerNameOk] at hok
  · rw [show str "bcc:" = [98, 99, 99, 58] from by decide,
        show str ": " = [58, 32] from by decide]
    simp [lowerStr, lowerU, List.isPrefixOf]
  · rw [show str "bcc:" = [98, 99, 99, 58] from by decide,
        show str ": " = [58, 32] from by decide]
    simp [lowerStr, lowerU, List.isPrefixOf]
  · by_contra hcon
    rw [Bool.not_eq_false] at hcon
    rw [show str "bcc:" = [98, 99, 99, 58] from by decide,
        show str ": " = [58, 32] from by decide] at hcon
    simp [lowerStr, List.isPrefixOf, show lowerU 58 = 58 from by decide,
      show lowerU 32 = 32 from by decide] at hcon
    obtain ⟨ha, hb, hc⟩ := hcon
    have hr : isReservedName [a, b, c] = true := by
      unfold isReservedName
      rw [show lowerStr [a, b, c] = [lowerU a, lowerU b, lowerU c] from rfl]
      rw [← ha, ← hb, ← hc]
      decide
    rw [hr] at hres
    exact absurd hres (by decide)
  · have hd : isAlnumHyphen d = true := by
      simp only [headerNameOk, List.isEmpty_cons, Bool.not_false, Bool.true_and,
        List.all_cons, Bool.and_eq_true] at hok
      exact hok.2.2.2.1
    have hcolon : (58 == lowerU d) = false := by
      simp only [beq_eq_false_iff_ne, ne_eq]
      exact fun h => lowerU_ne_colon d hd h.symm
    rw [show str "bcc:" = [98, 99, 99, 58] from by decide,
        show str ": " = [58, 32] from by decide]
    simp [lowerStr, List.isPrefixOf, hcolon, show lowerU 58 = 58 from by decide,
      show lowerU 32 = 32 from by decide]

/-- Lines produced by the custom-header loop are of the shape
`name: value` for a name passing both filters. -/
theorem customHeaderLines_mem (hs : List (Str × Str)) (line : Str)
    (h : line ∈ customHeaderLines hs) :
    ∃ name value, headerNameOk name = true ∧ isReservedName name = false ∧
      line = name ++ str ": " ++ sanitizeHeader value := by
  induction hs with
  | nil => simp [customHeaderLines] at h
  | cons nv t ih =>
    rcases nv with ⟨name, value⟩
    by_cases hc : (headerNameOk name && !isReservedName name) = true
    · rw [customHeaderLines, if_pos hc] at h
      rcases List.mem_cons.mp h with rfl | h2
      · rw [Bool.and_eq_true, Bool.not_eq_true'] at hc
        exact ⟨name, value, hc.1, hc.2, rfl⟩
      · exact ih h2
    · rw [customHeaderLines, if_neg hc] at h
      exact ih h

/-- No line of the composed header section starts with `bcc:` in any
letter case: `createEmailHeaders` never emits a `Bcc` header and the
reserved-name filter drops a user-supplied `bcc` name. -/
theorem createEmailHeaders_no_bcc_line (user rand date : Str) (o : EmailOptions) :
    ∀ line ∈ createEmailHeaders user rand date o,
      (str "bcc:").isPrefixOf (lowerStr line) = false := by
  intro line hline
  unfold createEmailHeaders at hline
  rcases List.mem_append.mp hline with h | h
  rotate_left
  · -- custom headers block
    cases hh : o.headers with
    | none => rw [hh] at h; simp at h
    | some hs =>
      rw [hh] at h
      dsimp only at h
      obtain ⟨name, value, hok, hres, rfl⟩ := customHeaderLines_mem hs line h
      exact not_bcc_prefix_custom name (sanitizeHeader value) hok hres
  rcases List.mem_append.mp h with h | h
  rotate_left
  · -- Reply-To block
    cases hrt : o.replyTo with
    | none => rw [hrt] at h; simp at h
    | some r =>
      rw [hrt] at h
      dsimp only at h
      by_cases hre : r.isEmpty
      · rw [if_pos hre] at h; simp at h
      · rw [if_neg hre] at h
        rcases List.mem_singleton.mp h with rfl
        exact not_bcc_prefix_append (str "Reply-To: ") _ (by decide)
  rcases List.mem_append.mp h with h | h
  rotate_left
  · -- Cc block
    by_cases hcc : jsTruthy o.cc
    · rw [if_pos hcc] at h
      rcases List.mem_singleton.mp h with rfl
      exact not_bcc_prefix_append (str "Cc: ") _ (by decide)
    · rw [if_neg hcc] at h; simp at h
  · -- the six fixed lines
    simp only [List.mem_cons, List.not_mem_nil, or_false] at h
    rcases h with rfl | rfl | rfl | rfl | rfl | rfl
    · exact not_bcc_prefix_append (str "From: ") _ (by decide)
    · exact not_bcc_prefix_append (str "To: ") _ (by decide)
    · exact not_bcc_prefix_append (str "Subject: ") _ (by decide)
    · exact not_bcc_prefix_append (str "Message-ID: ") _ (by decide)
    · exact not_bcc_prefix_append (str "Date: ") _ (by decide)
    · decide

set_option maxRecDepth 8192 in
/-- Claim C1 counterexample: a message whose bcc list holds the `to`
address itself. That address — syntactically valid, carried once in bcc
— receives two `RCPT TO` commands, and it does appear in the composed
header section (in the `To:` line), falsifying both halves of the claim
as stated. -/
theorem C1_counterexample :
    validateEmail (str "a@x.co") = true ∧
    optJsList optsBccOverlap.bcc = [str "a@x.co"] ∧
    (sendEmailM cfgEx (fun _ => acceptingEnv) (str "R") (str "D") (str "B")
        optsBccOverlap).2.1.count (rcptCmd (str "a@x.co")) = 2 ∧
    hasSubstr (joinCRLF (createEmailHeaders cfgEx.user (str "R") (str "D") optsBccOverlap))
      (str "a@x.co") = true := by
  decide

/-- Claim C1 as amended: under an all-accepting server, a syntactically
valid bcc address listed exactly once and not occurring as the `to`
address or among the cc entries receives exactly one `RCPT TO` command
in the attempt's command trace; the composed header section never
depends on the bcc list at all; and no header line is a `Bcc` header. -/
theorem C1_amended (timeout : Nat) (env : AttemptEnv) (user rand date bndRand : Str)
    (o : EmailOptions) (fromA b : Str) (connected : Bool)
    (hh : env.handshake = Except.ok ())
    (hr : ∀ c, env.respond c = if c = str "DATA" then str "354 Send data" else str "250 OK")
    (hvalid : validateEmail b = true)
    (hcount : (optJsList o.bcc).count b = 1)
    (hto : o.toAddr.render ≠ b)
    (hcc : b ∉ optJsList o.cc) :
    (attemptM timeout env user rand date bndRand o fromA connected).1.count (rcptCmd b) = 1 ∧
    (∀ l, createEmailHeaders user rand date { o with bcc := l } =
      createEmailHeaders user rand date o) ∧
    (∀ line ∈ createEmailHeaders user rand date o,
      (str "bcc:").isPrefixOf (lowerStr line) = false) := by
  refine ⟨?_, fun l => rfl, createEmailHeaders_no_bcc_line user rand date o⟩
  have henv : (envelopeCmds o fromA).count (rcptCmd b) = 1 := by
    have c1 : List.count (rcptCmd b) [mailFromCmd fromA, rcptCmd o.toAddr.render] = 0 := by
      refine List.count_eq_zero.mpr ?_
      intro hmem
      rcases List.mem_cons.mp hmem with h | h
      · exact mailFromCmd_ne_rcptCmd fromA b h.symm
      · rcases List.mem_singleton.mp h with h2
        exact hto ((rcptCmd_inj b o.toAddr.render).mp h2).symm
    have c2 : (((optJsList o.cc).filter validateEmail).map rcptCmd).count (rcptCmd b) = 0 := by
      refine List.count_eq_zero.mpr ?_
      intro hmem
      obtain ⟨a, hain, ha⟩ := List.mem_map.mp hmem
      rcases (rcptCmd_inj a b).mp ha
      exact hcc (List.mem_of_mem_filter hain)
    have c3 : (((optJsList o.bcc).filter validateEmail).map rcptCmd).count (rcptCmd b) = 1 := by
      rw [count_map_rcptCmd, count_filter_validate _ _ hvalid, hcount]
    have c4 : List.count (rcptCmd b) [str "DATA"] = 0 := by
      refine List.count_eq_zero.mpr ?_
      intro hmem
      rcases List.mem_singleton.mp hmem with h2
      exact rcptCmd_ne_DATA b h2
    unfold envelopeCmds
    rw [List.count_append, List.count_append, List.count_append, c1, c2, c3, c4]
  rw [attemptM_accepting timeout env user rand date bndRand o fromA connected hh hr]
  by_cases hbig : (createMultipartEmail user rand date bndRand o).length > maxEmailSize
  · rw [if_pos hbig]
    exact henv
  · rw [if_neg hbig]
    have c5 : List.count (rcptCmd b)
        [createMultipartEmail user rand date bndRand o ++ str "\r\n."] = 0 := by
      refine List.count_eq_zero.mpr ?_
      intro hmem
      rcases List.mem_singleton.mp hmem with h2
      exact contentCmd_ne_rcptCmd _ b h2.symm
    rw [List.count_append, henv, c5]

set_option maxRecDepth 8192 in
/-- Claim C1 witness: the amended statement evaluated on a message with
disjoint recipients (and one invalid bcc entry, which receives no
RCPT). -/
theorem C1_witness :
    validateEmail (str "b@x.co") = true ∧
    (optJsList optsBccDisjoint.bcc).count (str "b@x.co") = 1 ∧
    (attemptM 10000 acceptingEnv (str "u@x.co") (str "R") (str "D") (str "B")
        optsBccDisjoint (str "u@x.co") true).1.count (rcptCmd (str "b@x.co")) = 1 ∧
    (∀ line ∈ createEmailHeaders (str "u@x.co") (str "R") (str "D") optsBccDisjoint,
      (str "bcc:").isPrefixOf (lowerStr line) = false) :=
  ⟨by decide, by decide,
   (C1_amended 10000 acceptingEnv (str "u@x.co") (str "R") (str "D") (str "B")
      optsBccDisjoint (str "u@x.co") (str "b@x.co") true rfl (fun c => rfl)
      (by decide) (by decide) (by decide) (by decide)).1,
   (C1_amended 10000 acceptingEnv (str "u@x.co") (str "R") (str "D") (str "B")
      optsBccDisjoint (str "u@x.co") (str "b@x.co") true rfl (fun c => rfl)
      (by decide) (by decide) (by decide) (by decide)).2.2⟩

end MikroMail
